import Mathlib

/-! vLogger: level gate, initialiser and formatter/writer

Shallow embedding of `src/vlogger.h` (the emit guards `Trace` .. `Fatal` and their
`...If` variants) and `src/vlogger.c` (`vLogInit`, `vLogMessage`).

Conventions of the embedding
* a C `char` is a `Char`, a buffer or string is a `List Char`; the C string held in a
  buffer is the part before the first NUL (`cstr`);
* `int`, `long`, `unsigned long` values are `Int`/`Nat`, reduced modulo `2 ^ w` where the
  C code reinterprets them (the `printf` conversions);
* the process state (`vLogLevel`, what file descriptor 2 is bound to, `errno`, the
  bytes accepted by `write`) is an explicit record threaded through the operations;
* the answers of the operating system and of the C library (file checks, clock, pid,
  thread id, what library calls leave in `errno`, write errors) are explicit inputs
  (`FileSys`, `Ambient`);
* `printf`-style expansion follows the directive grammar of ISO C: every flag, width
  and precision (also given by `*`), every length modifier and every conversion. The
  integer, character and string conversions are computed; the text of a floating-point,
  pointer or wide-character argument is carried by the argument. The expansion is `none`
  only where ISO C leaves the behaviour undefined; `vLogMessage` and the guards stay
  total there, the bytes written being an input about which nothing is assumed.
-/

namespace VLogger

/-! ## Constants of `vlogger.h` and `vlogger.c` -/

def LOG_FATAL : Int := 60
def LOG_ERROR : Int := 50
def LOG_WARN : Int := 40
def LOG_INFO : Int := 30
def LOG_DEBUG : Int := 20
def LOG_TRACE : Int := 10
def LOG_OFF : Int := 0

/-- Default level: `LOG_DEFAULT` is `LOG_INFO` unless overridden at build time. -/
def LOG_DEFAULT : Int := LOG_INFO

def kDateTimeBufferSize : Nat := 100
def kOutputBufferSize : Nat := 1024

/-- Value of `EXIT_FAILURE` in `<stdlib.h>` (1 on POSIX systems). -/
def EXIT_FAILURE : Int := 1

/-- Value of `EBADF` in `<errno.h>`: `write` on a closed descriptor. -/
def EBADF : Int := 9

/-! ## C strings and integer reinterpretation -/

/-- The NUL byte that ends a C string. -/
def NUL : Char := Char.ofNat 0

/-- The C string stored in a buffer: the bytes before the first NUL. Its length is
what `strlen` returns. -/
def cstr (buf : List Char) : List Char := buf.takeWhile (fun c => c != NUL)

/-- Two's-complement reading of `v` as a signed integer of `bits` bits. -/
def wrapSigned (bits : Nat) (v : Int) : Int :=
  let m := v % (2 : Int) ^ bits
  if m < (2 : Int) ^ (bits - 1) then m else m - (2 : Int) ^ bits

/-- Reading of `v` as an unsigned integer of `bits` bits. -/
def wrapUnsigned (bits : Nat) (v : Int) : Nat := (v % (2 : Int) ^ bits).toNat

/-- Decimal digits of a natural number. -/
def decNat (n : Nat) : List Char := Nat.toDigits 10 n

/-- Sign of a signed conversion: a minus for negative values, nothing otherwise. -/
def signOf (x : Int) : List Char := if x < 0 then ['-'] else []

/-- Lay out a converted value in a field of minimal width `width`: `left` is the `-`
flag (pad on the right), `zero` the `0` flag (pad with zeros after the sign),
otherwise pad with blanks on the left. -/
def padField (left zero : Bool) (width : Nat) (sign digits : List Char) : List Char :=
  let len := sign.length + digits.length
  if left then sign ++ digits ++ List.replicate (width - len) ' '
  else if zero then sign ++ List.replicate (width - len) '0' ++ digits
  else List.replicate (width - len) ' ' ++ sign ++ digits

/-! ## The `printf` family -/

/-- Length modifier of a directive; `plain` is none. -/
inductive Len where
  | plain | hh | h | l | ll | j | z | t | L
  deriving DecidableEq, Repr

/-- A conversion specification `%[flags][width][.precision][length]conversion`, as ISO C
words it: the flags `-`, `+`, blank, `#` and `0`, the field width, the precision, the
length modifier and the conversion character. -/
structure Directive where
  left : Bool
  plus : Bool
  space : Bool
  alt : Bool
  zero : Bool
  width : Nat
  prec : Option Nat
  len : Len
  conv : Char
  deriving DecidableEq, Repr

/-- The directive of which only the `%` has been read. -/
def Directive.blank : Directive :=
  { left := false, plus := false, space := false, alt := false, zero := false,
    width := 0, prec := none, len := Len.plain, conv := '%' }

/-- A variadic argument after default promotion. An integer of any integer type is its
value; a `char *` is its buffer. Floating-point arithmetic is outside the embedding: a
`double` or `long double` is given by the field text the library prints for it under
each directive. A pointer is given by the text `%p` prints for it, and a wide character
or wide string by the multibyte sequences of its characters. -/
inductive Arg where
  | int (v : Int)
  | str (s : List Char)
  | dbl (text : Directive → List Char)
  | ptr (text : List Char)
  | wide (chunks : List (List Char))

/-- What part of a directive the scanner is reading. -/
inductive Stage where
  | flags | width | widthDone | dot | prec | precDone | h | l | lenDone
  deriving DecidableEq, Repr

/-- Scanner state while reading a format string: literal text, or inside a directive. -/
inductive Scan where
  | text
  | spec (stage : Stage) (d : Directive)
  deriving DecidableEq, Repr

/-- Width in bits of the integer type selected by a length modifier (LP64: `int` has 32
bits, `long`, `long long`, `intmax_t`, `size_t` and `ptrdiff_t` have 64). -/
def intBits (len : Len) : Option Nat :=
  match len with
  | Len.plain => some 32
  | Len.hh => some 8
  | Len.h => some 16
  | Len.L => none
  | _ => some 64

/-- Sign of a signed conversion under the flags `+` and blank. -/
def signText (plus space : Bool) (x : Int) : List Char :=
  if x < 0 then ['-'] else if plus then ['+'] else if space then [' '] else []

/-- Apply the precision of an integer conversion: at least that many digits, and no
digit at all for the value 0 with precision 0. -/
def withPrecision (prec : Option Nat) (n : Nat) (digits : List Char) : List Char :=
  match prec with
  | none => digits
  | some p => if p = 0 ∧ n = 0 then [] else List.replicate (p - digits.length) '0' ++ digits

/-- Digits of an unsigned conversion: octal for `o`, hexadecimal for `x` and `X`,
decimal for `u`. -/
def radixDigits (c : Char) (n : Nat) : List Char :=
  if c = 'o' then Nat.toDigits 8 n
  else if c = 'x' then Nat.toDigits 16 n
  else if c = 'X' then (Nat.toDigits 16 n).map Char.toUpper
  else decNat n

/-- The conversions `d` and `i`. The flag `0` is ignored when a precision is given. -/
def convertSigned (d : Directive) (v : Int) : Option (List Char) :=
  match intBits d.len with
  | none => none
  | some bits =>
    if d.alt then none
    else
      some (padField d.left (d.zero && d.prec.isNone) d.width
        (signText d.plus d.space (wrapSigned bits v))
        (withPrecision d.prec (wrapSigned bits v).natAbs (decNat (wrapSigned bits v).natAbs)))

/-- The conversions `u`, `o`, `x` and `X`. The flag `#` makes an octal number start with
`0` and puts `0x` or `0X` before a nonzero hexadecimal number. -/
def convertUnsigned (d : Directive) (v : Int) : Option (List Char) :=
  match intBits d.len with
  | none => none
  | some bits =>
    if d.conv = 'u' && d.alt then none
    else
      let n := wrapUnsigned bits v
      let digits := withPrecision d.prec n (radixDigits d.conv n)
      let digits1 :=
        if d.conv = 'o' && d.alt && digits.head? != some '0' then '0' :: digits else digits
      let lead : List Char :=
        if d.alt && n != 0 && d.conv = 'x' then ['0', 'x']
        else if d.alt && n != 0 && d.conv = 'X' then ['0', 'X']
        else []
      some (padField d.left (d.zero && d.prec.isNone) d.width lead digits1)

/-- The leading multibyte sequences of a wide string that fit in `p` bytes. -/
def takeChunks : Nat → List (List Char) → List Char
  | _, [] => []
  | p, ch :: rest => if ch.length ≤ p then ch ++ takeChunks (p - ch.length) rest else []

/-- The conversions `c` and `s`, with the `l` modifier for their wide forms. A wide
character given as an integer is written as the byte of that value when it is below
128; beyond that its multibyte form depends on the locale and is given as `Arg.wide`. -/
def convertText (d : Directive) (a : Arg) : Option (List Char) :=
  if d.alt || d.zero then none
  else if d.conv = 'c' then
    if d.prec.isSome then none
    else
      match d.len, a with
      | Len.plain, Arg.int v =>
        some (padField d.left false d.width [] [Char.ofNat (wrapUnsigned 8 v)])
      | Len.l, Arg.wide chunks => some (padField d.left false d.width [] chunks.flatten)
      | Len.l, Arg.int v =>
        if 0 ≤ v ∧ v < 128 then some (padField d.left false d.width [] [Char.ofNat v.natAbs])
        else none
      | _, _ => none
  else
    match d.len, a with
    | Len.plain, Arg.str s =>
      some (padField d.left false d.width []
        (match d.prec with
          | none => cstr s
          | some p => (cstr s).take p))
    | Len.l, Arg.wide chunks =>
      some (padField d.left false d.width []
        (match d.prec with
          | none => chunks.flatten
          | some p => takeChunks p chunks))
    | _, _ => none

/-- Apply a complete directive to the arguments: the text produced and the arguments
left. The result is `none` where ISO C leaves the behaviour undefined: an unknown
conversion character, a flag, precision or length modifier the conversion does not
take, a missing argument or one of the wrong kind. -/
def convert (d : Directive) (args : List Arg) : Option (List Char × List Arg) :=
  if d.conv = '%' then
    if d.left || d.plus || d.space || d.alt || d.zero || d.width != 0 || d.prec.isSome ||
        d.len != Len.plain then none
    else some (['%'], args)
  else if d.conv = 'd' || d.conv = 'i' then
    match args with
    | Arg.int v :: rest =>
      match convertSigned d v with
      | none => none
      | some t => some (t, rest)
    | _ => none
  else if d.conv = 'u' || d.conv = 'o' || d.conv = 'x' || d.conv = 'X' then
    match args with
    | Arg.int v :: rest =>
      match convertUnsigned d v with
      | none => none
      | some t => some (t, rest)
    | _ => none
  else if d.conv = 'c' || d.conv = 's' then
    match args with
    | a :: rest =>
      match convertText d a with
      | none => none
      | some t => some (t, rest)
    | [] => none
  else if d.conv = 'f' || d.conv = 'F' || d.conv = 'e' || d.conv = 'E' || d.conv = 'g' ||
      d.conv = 'G' || d.conv = 'a' || d.conv = 'A' then
    match args with
    | Arg.dbl text :: rest =>
      if d.len = Len.plain || d.len = Len.l || d.len = Len.L then some (text d, rest)
      else none
    | _ => none
  else if d.conv = 'p' then
    match args with
    | Arg.ptr text :: rest =>
      if d.alt || d.zero || d.prec.isSome || d.len != Len.plain then none
      else some (padField d.left false d.width [] text, rest)
    | _ => none
  else if d.conv = 'n' then
    match args with
    | Arg.ptr _ :: rest =>
      if d.left || d.plus || d.space || d.alt || d.zero || d.width != 0 ||
          d.prec.isSome || d.len = Len.L then none
      else some ([], rest)
    | _ => none
  else none

/-- Lift a conversion result to a scanner step back in text mode. -/
def backToText (r : Option (List Char × List Arg)) : Option (Scan × List Char × List Arg) :=
  match r with
  | none => none
  | some (t, rest) => some (Scan.text, t, rest)

/-- The character `c` ends the directive as its conversion character. -/
def finish (d : Directive) (c : Char) (args : List Arg) :
    Option (Scan × List Char × List Arg) :=
  backToText (convert { d with conv := c } args)

/-- The character `c` starts a length modifier or is the conversion character. -/
def lengthOrFinish (d : Directive) (c : Char) (args : List Arg) :
    Option (Scan × List Char × List Arg) :=
  if c = 'h' then some (Scan.spec Stage.h { d with len := Len.h }, [], args)
  else if c = 'l' then some (Scan.spec Stage.l { d with len := Len.l }, [], args)
  else if c = 'j' then some (Scan.spec Stage.lenDone { d with len := Len.j }, [], args)
  else if c = 'z' then some (Scan.spec Stage.lenDone { d with len := Len.z }, [], args)
  else if c = 't' then some (Scan.spec Stage.lenDone { d with len := Len.t }, [], args)
  else if c = 'L' then some (Scan.spec Stage.lenDone { d with len := Len.L }, [], args)
  else finish d c args

/-- The character `c` starts the precision, a length modifier or is the conversion
character. A `.` alone is the precision 0. -/
def dotOrLength (d : Directive) (c : Char) (args : List Arg) :
    Option (Scan × List Char × List Arg) :=
  if c = '.' then some (Scan.spec Stage.dot { d with prec := some 0 }, [], args)
  else lengthOrFinish d c args

/-- One character of the format string: the next scanner state, the text produced
and the arguments left. A `*` takes the width or the precision from an `int` argument:
a negative width is the flag `-` with the absolute value, a negative precision is no
precision. -/
def scanChar (s : Scan) (c : Char) (args : List Arg) : Option (Scan × List Char × List Arg) :=
  match s with
  | Scan.text =>
    if c = '%' then some (Scan.spec Stage.flags Directive.blank, [], args)
    else some (Scan.text, [c], args)
  | Scan.spec Stage.flags d =>
    if c = '-' then some (Scan.spec Stage.flags { d with left := true }, [], args)
    else if c = '+' then some (Scan.spec Stage.flags { d with plus := true }, [], args)
    else if c = ' ' then some (Scan.spec Stage.flags { d with space := true }, [], args)
    else if c = '#' then some (Scan.spec Stage.flags { d with alt := true }, [], args)
    else if c = '0' then some (Scan.spec Stage.flags { d with zero := true }, [], args)
    else if c.isDigit then
      some (Scan.spec Stage.width { d with width := c.toNat - 48 }, [], args)
    else if c = '*' then
      match args with
      | Arg.int w :: rest =>
        some (Scan.spec Stage.widthDone
          { d with left := d.left || decide (wrapSigned 32 w < 0),
                   width := (wrapSigned 32 w).natAbs }, [], rest)
      | _ => none
    else dotOrLength d c args
  | Scan.spec Stage.width d =>
    if c.isDigit then
      some (Scan.spec Stage.width { d with width := d.width * 10 + (c.toNat - 48) }, [], args)
    else dotOrLength d c args
  | Scan.spec Stage.widthDone d => dotOrLength d c args
  | Scan.spec Stage.dot d =>
    if c.isDigit then
      some (Scan.spec Stage.prec { d with prec := some (c.toNat - 48) }, [], args)
    else if c = '*' then
      match args with
      | Arg.int p :: rest =>
        some (Scan.spec Stage.precDone
          { d with prec := if wrapSigned 32 p < 0 then none
                           else some (wrapSigned 32 p).natAbs }, [], rest)
      | _ => none
    else lengthOrFinish d c args
  | Scan.spec Stage.prec d =>
    if c.isDigit then
      some (Scan.spec Stage.prec
        { d with prec := some (d.prec.getD 0 * 10 + (c.toNat - 48)) }, [], args)
    else lengthOrFinish d c args
  | Scan.spec Stage.precDone d => lengthOrFinish d c args
  | Scan.spec Stage.h d =>
    if c = 'h' then some (Scan.spec Stage.lenDone { d with len := Len.hh }, [], args)
    else finish d c args
  | Scan.spec Stage.l d =>
    if c = 'l' then some (Scan.spec Stage.lenDone { d with len := Len.ll }, [], args)
    else finish d c args
  | Scan.spec Stage.lenDone d => finish d c args

/-- Full (untruncated) expansion of a format string against its arguments. A format
that ends inside a directive has no defined expansion. Surplus arguments are
ignored, as in C. -/
def expand : List Char → Scan → List Arg → Option (List Char)
  | [], Scan.text, _ => some []
  | [], _, _ => none
  | c :: cs, s, args =>
    match scanChar s c args with
    | none => none
    | some (s1, t, rest) =>
      match expand cs s1 rest with
      | none => none
      | some out => some (t ++ out)

/-- Model of `snprintf(buf, size, fmt, args)` and `vsnprintf` on a zeroed buffer: the
string left in the buffer is the expansion cut to `size - 1` bytes. -/
def snprintf (size : Nat) (fmt : List Char) (args : List Arg) : Option (List Char) :=
  match expand (cstr fmt) Scan.text args with
  | none => none
  | some full => some (full.take (size - 1))

/-- Model of `strftime(buf, max, "%FT%T%z", tm)` given the text `rendered` that the
pattern produces for the current local time: the return value and the buffer.
The call returns 0 when the text and its NUL do not fit. -/
def strftime (max : Nat) (rendered : List Char) : Nat × List Char :=
  if rendered.length < max then (rendered.length, rendered) else (0, [])

/-! ## Process state and environment -/

/-- What file descriptor 2 (the error stream) is bound to. -/
inductive Dest where
  | stderr
  | file (path : List Char)
  | closed
  deriving DecidableEq, Repr

/-- The process-wide logger state together with the observable effects. -/
structure State where
  vLogLevel : Int
  dest : Dest
  errno : Int
  written : List (Dest × List Char)
  deriving DecidableEq, Repr

/-- State of a fresh process: `vLogLevel = LOG_DEFAULT`, error stream untouched. -/
def State.initial : State :=
  { vLogLevel := LOG_DEFAULT, dest := Dest.stderr, errno := 0, written := [] }

/-- Answers of the file system to the calls made by `vLogInit`. For each call `none`
is success and `some e` is failure with `errno = e`. -/
structure FileSys where
  accessF : List Char → Option Int
  accessW : List Char → Option Int
  freopen : List Char → Option Int

/-- What the operating system and the C library answer during one `vLogMessage` call:
the text the pattern `%FT%T%z` gives for the current time, `getpid()`,
`pthread_self()` as an `unsigned long`, the value the library calls before the `write`
(`localtime_r`, `strftime`, `snprintf`, `vsnprintf`) leave in `errno` if they set it,
the bytes found in `output` when the expansion is one ISO C leaves undefined (nothing
is assumed about them), and the error (if any) of the `write` call. -/
structure Ambient where
  isoTime : List Char
  pid : Int
  tid : Nat
  libcErrno : Option Int
  undefinedOutput : List Char
  writeErr : Option Int
  deriving DecidableEq, Repr

/-- How a piece of code hands control back. -/
inductive Outcome where
  | returns (st : State)
  | exits (status : Int) (st : State)
  deriving DecidableEq, Repr

/-! ## `vLogInit` -/

/-- The `freopen(filepath, "a", stderr)` step of `vLogInit`. On failure the stream has
already been closed. -/
def reopen (fs : FileSys) (p : List Char) (st : State) : Bool × State :=
  match fs.freopen p with
  | some e => (false, { st with dest := Dest.closed, errno := e })
  | none => (true, { st with dest := Dest.file p })

/-- Embedding of `bool vLogInit(int level, const char* filepath)`; `filepath = none`
is the NULL pointer. -/
def vLogInit (fs : FileSys) (level : Int) (filepath : Option (List Char)) (st : State) :
    Bool × State :=
  let st1 := if LOG_OFF ≤ level ∧ level ≤ LOG_FATAL then { st with vLogLevel := level } else st
  match filepath with
  | none => (true, st1)
  | some p =>
    match fs.accessF p with
    | none =>
      match fs.accessW p with
      | some e => (false, { st1 with errno := e })
      | none => reopen fs p st1
    | some e => reopen fs p { st1 with errno := e }

/-! ## `vLogMessage` -/

/-- The format literal of the first `snprintf` in `vLogMessage`. -/
def headFormat : List Char := "%s | %6d | %ld | %-7s | %s\n".toList

/-- The timestamp argument `(res > 0 ? timestamp : "")`. -/
def timestampArg (amb : Ambient) : List Char :=
  let r := strftime kDateTimeBufferSize amb.isoTime
  if r.1 > 0 then r.2 else []

/-- The buffer `message` after the first `snprintf`. -/
def composeMessage (amb : Ambient) (label format : List Char) : Option (List Char) :=
  snprintf kOutputBufferSize headFormat
    [Arg.str (timestampArg amb), Arg.int amb.pid, Arg.int amb.tid, Arg.str label, Arg.str format]

/-- The bytes `vLogMessage` hands to `write` when both expansions are defined: `output`
up to `strlen(output)`. -/
def render (amb : Ambient) (label format : List Char) (args : List Arg) : Option (List Char) :=
  match composeMessage amb label format with
  | none => none
  | some message =>
    match snprintf kOutputBufferSize message args with
    | none => none
    | some output => some (cstr output)

/-- Model of `write(STDERR_FILENO, bytes, n)`: fails with `EBADF` on a closed
descriptor, fails with the ambient error if there is one, otherwise the bytes
reach the destination. The result is ignored by the caller. -/
def write (err : Option Int) (bytes : List Char) (st : State) : State :=
  match st.dest with
  | Dest.closed => { st with errno := EBADF }
  | d =>
    match err with
    | some e => { st with errno := e }
    | none => { st with written := st.written ++ [(d, bytes)] }

/-- The bytes `vLogMessage` hands to `write`, for every format: the rendering where the
expansion is defined, and otherwise whatever the library left in `output`. -/
def outputBytes (amb : Ambient) (label format : List Char) (args : List Arg) : List Char :=
  match render amb label format args with
  | some bytes => bytes
  | none => cstr amb.undefinedOutput

/-- The state after the library calls that precede the `write`: `errno` holds what
they left there, if they set it. -/
def afterLibc (amb : Ambient) (st : State) : State :=
  match amb.libcErrno with
  | some e => { st with errno := e }
  | none => st

/-- Embedding of `void vLogMessage(const char *label, const char *format, ...)`. -/
def vLogMessage (amb : Ambient) (label format : List Char) (args : List Arg) (st : State) :
    State :=
  write amb.writeErr (outputBytes amb label format args) (afterLibc amb st)

/-! ## The emit guards of `vlogger.h` -/

/-- The variadic arguments of an emit call as written at the call site: expressions
that are evaluated, with their side effects, when the call to `vLogMessage` is
reached. -/
abbrev ArgsExpr := State → List Arg × State

/-- Argument expressions without side effects. -/
def pureArgs (vals : List Arg) : ArgsExpr := fun st => (vals, st)

/-- The guard `Trace(format, ...)`: `if (vLogLevel && vLogLevel <= LOG_TRACE)`. -/
def Trace (amb : Ambient) (format : List Char) (args : ArgsExpr) (st : State) : State :=
  if st.vLogLevel ≠ 0 ∧ st.vLogLevel ≤ LOG_TRACE then
    vLogMessage amb "TRACE".toList format (args st).1 (args st).2
  else st

/-- The guard `Debug(format, ...)`: `if (vLogLevel && vLogLevel <= LOG_DEBUG)`. -/
def Debug (amb : Ambient) (format : List Char) (args : ArgsExpr) (st : State) : State :=
  if st.vLogLevel ≠ 0 ∧ st.vLogLevel ≤ LOG_DEBUG then
    vLogMessage amb "DEBUG".toList format (args st).1 (args st).2
  else st

/-- The guard `Info(format, ...)`: `if (vLogLevel && vLogLevel <= LOG_INFO)`. -/
def Info (amb : Ambient) (format : List Char) (args : ArgsExpr) (st : State) : State :=
  if st.vLogLevel ≠ 0 ∧ st.vLogLevel ≤ LOG_INFO then
    vLogMessage amb "INFO".toList format (args st).1 (args st).2
  else st

/-- The guard `InfoIf(expr, ...)`: `if (expr) Info(...)`. -/
def InfoIf (expr : Bool) (amb : Ambient) (format : List Char) (args : ArgsExpr) (st : State) :
    State :=
  if expr then Info amb format args st else st

/-- The guard `Warn(format, ...)`: `if (vLogLevel && vLogLevel <= LOG_WARN)`. -/
def Warn (amb : Ambient) (format : List Char) (args : ArgsExpr) (st : State) : State :=
  if st.vLogLevel ≠ 0 ∧ st.vLogLevel ≤ LOG_WARN then
    vLogMessage amb "WARNING".toList format (args st).1 (args st).2
  else st

/-- The guard `WarnIf(expr, ...)`: `if (expr) Warn(...)`. -/
def WarnIf (expr : Bool) (amb : Ambient) (format : List Char) (args : ArgsExpr) (st : State) :
    State :=
  if expr then Warn amb format args st else st

/-- The guard `Error(format, ...)`: `if (vLogLevel && vLogLevel <= LOG_ERROR)`. -/
def Error (amb : Ambient) (format : List Char) (args : ArgsExpr) (st : State) : State :=
  if st.vLogLevel ≠ 0 ∧ st.vLogLevel ≤ LOG_ERROR then
    vLogMessage amb "ERROR".toList format (args st).1 (args st).2
  else st

/-- The guard `ErrorIf(expr, ...)`: `if (expr) Error(...)`. -/
def ErrorIf (expr : Bool) (amb : Ambient) (format : List Char) (args : ArgsExpr) (st : State) :
    State :=
  if expr then Error amb format args st else st

/-- The `Fatal` guard: after the message, `exit((errno != 0) ? errno : EXIT_FAILURE)`. -/
def Fatal (amb : Ambient) (format : List Char) (args : ArgsExpr) (st : State) : Outcome :=
  if st.vLogLevel ≠ 0 ∧ st.vLogLevel ≤ LOG_FATAL then
    Outcome.exits
      (if (vLogMessage amb "FATAL".toList format (args st).1 (args st).2).errno ≠ 0 then
        (vLogMessage amb "FATAL".toList format (args st).1 (args st).2).errno
       else EXIT_FAILURE)
      (vLogMessage amb "FATAL".toList format (args st).1 (args st).2)
  else Outcome.returns st

/-- The guard `FatalIf(expr, ...)`: `if (expr) Fatal(...)`. -/
def FatalIf (expr : Bool) (amb : Ambient) (format : List Char) (args : ArgsExpr) (st : State) :
    Outcome :=
  if expr then Fatal amb format args st else Outcome.returns st

/-! ## Levels, as the specification names them -/

/-- The six real severity levels. -/
inductive Level where
  | trace | debug | info | warn | error | fatal
  deriving DecidableEq, Repr

/-- Numeric rank of a level (`LOG_TRACE` .. `LOG_FATAL`). -/
def Level.rank : Level → Int
  | Level.trace => LOG_TRACE
  | Level.debug => LOG_DEBUG
  | Level.info => LOG_INFO
  | Level.warn => LOG_WARN
  | Level.error => LOG_ERROR
  | Level.fatal => LOG_FATAL

/-- Label printed for a level. -/
def Level.label : Level → List Char
  | Level.trace => "TRACE".toList
  | Level.debug => "DEBUG".toList
  | Level.info => "INFO".toList
  | Level.warn => "WARNING".toList
  | Level.error => "ERROR".toList
  | Level.fatal => "FATAL".toList

/-- State carried by an outcome. -/
def Outcome.state : Outcome → State
  | Outcome.returns st => st
  | Outcome.exits _ st => st

/-- The emit operation of a level: the guard of that name in `vlogger.h`. -/
def emit (L : Level) (amb : Ambient) (format : List Char) (args : ArgsExpr) (st : State) :
    Outcome :=
  match L with
  | Level.trace => Outcome.returns (Trace amb format args st)
  | Level.debug => Outcome.returns (Debug amb format args st)
  | Level.info => Outcome.returns (Info amb format args st)
  | Level.warn => Outcome.returns (Warn amb format args st)
  | Level.error => Outcome.returns (Error amb format args st)
  | Level.fatal => Fatal amb format args st

/-- One emit call of a program: its level, the operating system answers during the
call, the format string and the (already evaluated) argument values. -/
structure Call where
  level : Level
  amb : Ambient
  format : List Char
  args : List Arg

/-- The lines of a stream of bytes: the runs between newlines. A run after the last
newline counts as a line too. -/
def linesOf : List Char → List (List Char)
  | [] => []
  | c :: cs =>
    if c = '\n' then [] :: linesOf cs
    else
      match linesOf cs with
      | [] => [[c]]
      | l :: ls => (c :: l) :: ls

/-- The separator between the fields of a line. -/
def sep : List Char := " | ".toList

/-- Text right-aligned in a field of width `n`. -/
def padLeft (n : Nat) (s : List Char) : List Char := List.replicate (n - s.length) ' ' ++ s

/-- Text left-aligned in a field of width `n`. -/
def padRight (n : Nat) (s : List Char) : List Char := s ++ List.replicate (n - s.length) ' '

/-- Signed decimal rendering of an integer. -/
def decInt (v : Int) : List Char := if v < 0 then '-' :: decNat v.natAbs else decNat v.natAbs

/-- The documented line: timestamp, pid right-aligned in 6 columns, thread id, label
left-aligned in 7 columns, the rendered message, each field followed by the separator,
and a final newline. -/
def specLine (timestamp : List Char) (pid : Int) (tid : Nat) (label body : List Char) :
    List Char :=
  timestamp ++ sep ++ padLeft 6 (decInt pid) ++ sep ++ decNat tid ++ sep ++
    padRight 7 label ++ sep ++ body ++ ['\n']

/-- Characters the pattern `%FT%T%z` can produce: digits, the date and time separators
and the sign of the zone offset. -/
def isoChar (c : Char) : Bool := c.isDigit || c == '-' || c == '+' || c == ':' || c == 'T'

/-- Whether a text consists of characters of an ISO 8601 timestamp only. -/
def isoTimestamp (ts : List Char) : Bool := ts.all isoChar

/-! ## The expectation of the test in `vlogger.c` -/

/-- Whether `needle` stands at the start of `hay`. -/
def startsWith : List Char → List Char → Bool
  | [], _ => true
  | _ :: _, [] => false
  | a :: as, b :: bs => a == b && startsWith as bs

/-- Model of the test `strstr(hay, needle) != NULL`: whether `needle` occurs in `hay`. -/
def strstr (needle : List Char) : List Char → Bool
  | [] => startsWith needle []
  | c :: cs => startsWith needle (c :: cs) || strstr needle cs

/-- The format the test passes to `sprintf` for a label: `" %d | %lu | LBL"`. -/
def expectedFormat (label : List Char) : List Char := " %d | %lu | ".toList ++ label

/-- The string `expected` of the test: `sprintf(expected, " %d | %lu | LBL", mypid, mytid)`
with `mypid = getpid()` and `mytid = (unsigned long) pthread_self()`. -/
def expected (amb : Ambient) (label : List Char) : Option (List Char) :=
  expand (cstr (expectedFormat label)) Scan.text [Arg.int amb.pid, Arg.int amb.tid]

/-- The substring the specification asks for: a blank, the pid as a signed decimal,
the thread id as an unsigned decimal and the label, separated by ` | `. -/
def specTag (pid : Int) (tid : Nat) (label : List Char) : List Char :=
  ' ' :: decInt pid ++ sep ++ decNat tid ++ sep ++ label

/-! ## The head of a line, as the code lays it out -/

/-- What the first `snprintf` of `vLogMessage` puts before the format: the timestamp
(`%s`), the pid (`%6d`), the thread id (`%ld`), the label (`%-7s`), each followed by
the separator. -/
def lineHead (amb : Ambient) (label : List Char) : List Char :=
  cstr (timestampArg amb) ++ sep ++
    padField false false 6 (signOf (wrapSigned 32 amb.pid))
      (decNat (wrapSigned 32 amb.pid).natAbs) ++
    sep ++
    padField false false 0 (signOf (wrapSigned 64 amb.tid))
      (decNat (wrapSigned 64 amb.tid).natAbs) ++
    sep ++ padField true false 7 [] (cstr label) ++ sep

/-- Room left in a buffer of `kOutputBufferSize` bytes after the head of the line. -/
def room (amb : Ambient) (label : List Char) : Nat :=
  (kOutputBufferSize - 1) - (lineHead amb label).length

/-- The line expected of a call, without its newline: the head with the label of the
call, then the expanded message. -/
def Call.line (c : Call) : List Char :=
  lineHead c.amb c.level.label ++ (expand (cstr c.format) Scan.text c.args).getD []

/-- The characters of the separators and of the number fields. -/
def fieldChars : List Char := " |-0123456789".toList

/-! ## Concrete environments used in the worked examples -/

/-- A file system where every path exists and is not writable (`EACCES` is 13). -/
def fsReadOnly : FileSys :=
  { accessF := fun _ => none, accessW := fun _ => some 13, freopen := fun _ => some 13 }

/-- A file system where no path exists (`ENOENT` is 2) and none can be created. -/
def fsNoCreate : FileSys :=
  { accessF := fun _ => some 2, accessW := fun _ => some 2, freopen := fun _ => some 13 }

/-- A file system where no path exists yet and every non-empty path can be created;
the empty path names no file (`ENOENT`), as POSIX prescribes. -/
def fsFresh : FileSys :=
  { accessF := fun _ => some 2, accessW := fun _ => some 2,
    freopen := fun p => if p = [] then some 2 else none }

/-- The unwritable location of the test in `vlogger.c`. -/
def varLogPath : List Char := "/var/log/test.log".toList

/-- The writable location of the test in `vlogger.c`. -/
def tmpLogPath : List Char := "/tmp/liblogger.log".toList

/-- Answers of a sample call: a timestamp, pid 4242, a thread id, library calls that
leave `errno` alone, a `write` that succeeds. -/
def ambSample : Ambient :=
  { isoTime := "2022-04-07T16:09:33+0100".toList, pid := 4242, tid := 140737348,
    libcErrno := none, undefinedOutput := [], writeErr := none }

/-- The same answers, except that the `write` fails with `ENOSPC` (28). -/
def ambDiskFull : Ambient := { ambSample with writeErr := some 28 }

/-- A format of 1001 bytes whose expansion has 501: an `x` and 500 times `%%`. -/
def longFormat : List Char := 'x' :: List.replicate 1000 '%'

/-- A format of 1100 bytes without any directive. -/
def plainLongFormat : List Char := List.replicate 1100 'a'

/-- The sample answers, for a thread whose identifier is `2 ^ 63`. -/
def ambHighTid : Ambient := { ambSample with tid := 2 ^ 63 }

/-- State after `vLogInit(LOG_OFF, NULL)` in a fresh process. -/
def stOff : State := (vLogInit fsFresh LOG_OFF none State.initial).2

/-- State left by a `vLogInit` whose `freopen` failed: the error stream is closed and
`errno` holds the cause (13). -/
def stBroken : State := (vLogInit fsNoCreate LOG_INFO (some varLogPath) State.initial).2

/-- The sample answers, except that a library call before the `write` (here the time
zone lookup of `localtime_r`) leaves `ENOENT` (2) in `errno`. -/
def ambTzMissing : Ambient := { ambSample with libcErrno := some 2 }

/-! ## Theorems -/

/-! ## Auxiliary facts: C strings, digits, padding -/

theorem cstr_ne_nul (s : List Char) : ∀ c ∈ cstr s, c ≠ NUL := by
  intro c hc
  have h := List.mem_takeWhile_imp hc
  simpa using h

theorem cstr_mem (s : List Char) : ∀ c ∈ cstr s, c ∈ s := fun _ hc =>
  (List.takeWhile_sublist _).subset hc

theorem cstr_eq_self (s : List Char) (h : ∀ c ∈ s, c ≠ NUL) : cstr s = s := by
  unfold cstr
  rw [List.takeWhile_eq_self_iff]
  intro c hc
  simpa using h c hc

theorem cstr_append (a b : List Char) (h : ∀ c ∈ a, c ≠ NUL) : cstr (a ++ b) = a ++ cstr b := by
  unfold cstr
  rw [List.takeWhile_append_of_pos]
  intro c hc
  simpa using h c hc

theorem cstr_length_le (s : List Char) : (cstr s).length ≤ s.length :=
  (List.takeWhile_sublist _).length_le

theorem digitChar_mem (d : Nat) (h : d < 10) : Nat.digitChar d ∈ fieldChars := by
  interval_cases d <;> decide

theorem toDigitsCore_mem (fuel : Nat) : ∀ (n : Nat) (acc : List Char) (c : Char),
    c ∈ Nat.toDigitsCore 10 fuel n acc → c ∈ acc ∨ c ∈ fieldChars := by
  induction fuel with
  | zero => intro n acc c hc; exact Or.inl (by simpa [Nat.toDigitsCore] using hc)
  | succ k ih =>
    intro n acc c hc
    simp only [Nat.toDigitsCore] at hc
    split at hc
    · rcases List.mem_cons.1 hc with h | h
      · exact Or.inr (h ▸ digitChar_mem _ (Nat.mod_lt _ (by decide)))
      · exact Or.inl h
    · rcases ih _ _ _ hc with h | h
      · rcases List.mem_cons.1 h with h | h
        · exact Or.inr (h ▸ digitChar_mem _ (Nat.mod_lt _ (by decide)))
        · exact Or.inl h
      · exact Or.inr h

theorem decNat_mem (n : Nat) : ∀ c ∈ decNat n, c ∈ fieldChars := by
  intro c hc
  rcases toDigitsCore_mem _ _ _ _ hc with h | h
  · simp at h
  · exact h

theorem decNat_length_le (n e : Nat) (h : n < 10 ^ e) (he : 0 < e) : (decNat n).length ≤ e :=
  Nat.toDigitsCore_length 10 (by decide) (n + 1) n e h he

theorem signOf_mem (x : Int) : ∀ c ∈ signOf x, c ∈ fieldChars := by
  intro c hc
  unfold signOf at hc
  split at hc
  · simp at hc; subst hc; decide
  · simp at hc

theorem signOf_length_le (x : Int) : (signOf x).length ≤ 1 := by
  unfold signOf; split <;> simp

theorem padField_mem (left zero : Bool) (w : Nat) (s d : List Char) :
    ∀ c ∈ padField left zero w s d, c ∈ s ∨ c ∈ d ∨ c ∈ fieldChars := by
  intro c hc
  have hsp : (' ' : Char) ∈ fieldChars := by decide
  have hz : ('0' : Char) ∈ fieldChars := by decide
  unfold padField at hc
  dsimp only at hc
  split at hc
  · simp only [List.mem_append, List.mem_replicate] at hc
    rcases hc with (h | h) | h
    · exact Or.inl h
    · exact Or.inr (Or.inl h)
    · exact Or.inr (Or.inr (h.2 ▸ hsp))
  · split at hc
    · simp only [List.mem_append, List.mem_replicate] at hc
      rcases hc with (h | h) | h
      · exact Or.inl h
      · exact Or.inr (Or.inr (h.2 ▸ hz))
      · exact Or.inr (Or.inl h)
    · simp only [List.mem_append, List.mem_replicate] at hc
      rcases hc with (h | h) | h
      · exact Or.inr (Or.inr (h.2 ▸ hsp))
      · exact Or.inl h
      · exact Or.inr (Or.inl h)

theorem padField_length (left zero : Bool) (w : Nat) (s d : List Char) :
    (padField left zero w s d).length = max w (s.length + d.length) := by
  unfold padField
  dsimp only
  split
  · simp only [List.length_append, List.length_replicate]; omega
  · split <;> simp only [List.length_append, List.length_replicate] <;> omega

theorem padField_plain (s : List Char) : padField false false 0 [] s = s := by
  simp [padField]

theorem fieldChars_ne (c : Char) (h : c ∈ fieldChars) : c ≠ '%' ∧ c ≠ NUL := by
  revert c
  decide

/-! ## Auxiliary facts: expansion -/

theorem expand_text_cons (c : Char) (cs : List Char) (args : List Arg) (h : c ≠ '%') :
    expand (c :: cs) Scan.text args = (expand cs Scan.text args).map (fun out => c :: out) := by
  simp only [expand, scanChar, if_neg h]
  cases expand cs Scan.text args <;> rfl

theorem expand_literal (lit rest : List Char) (args : List Arg) (h : ∀ c ∈ lit, c ≠ '%') :
    expand (lit ++ rest) Scan.text args =
      (expand rest Scan.text args).map (fun out => lit ++ out) := by
  induction lit with
  | nil => cases h0 : expand rest Scan.text args <;> simp [h0]
  | cons c cs ih =>
    rw [List.cons_append, expand_text_cons _ _ _ (h c (List.mem_cons_self _ _)),
      ih (fun x hx => h x (List.mem_cons_of_mem _ hx))]
    cases expand rest Scan.text args <;> rfl

theorem expand_append_newline (fmt : List Char) : ∀ (s : Scan) (args : List Arg) (r : List Char),
    expand fmt s args = some r → expand (fmt ++ ['\n']) s args = some (r ++ ['\n']) := by
  induction fmt with
  | nil =>
    intro s args r h
    cases s with
    | text =>
      simp only [expand, Option.some.injEq] at h
      subst h
      simp [expand, scanChar]
    | spec stage d => simp [expand] at h
  | cons c cs ih =>
    intro s args r h
    simp only [expand, List.cons_append] at h ⊢
    cases hs : scanChar s c args with
    | none => simp [hs] at h
    | some v =>
      obtain ⟨s1, t, rest⟩ := v
      simp only [hs] at h ⊢
      cases he : expand cs s1 rest with
      | none => simp [he] at h
      | some out =>
        simp only [he, Option.some.injEq] at h
        subst h
        simp [ih s1 rest out he]

theorem signText_plain (x : Int) : signText false false x = signOf x := by
  unfold signText signOf
  split <;> simp

theorem expand_headFormat (ts label format : List Char) (pid tid : Int) :
    expand headFormat Scan.text
        [Arg.str ts, Arg.int pid, Arg.int tid, Arg.str label, Arg.str format] =
      some (cstr ts ++ sep ++
        padField false false 6 (signOf (wrapSigned 32 pid)) (decNat (wrapSigned 32 pid).natAbs) ++
        sep ++
        padField false false 0 (signOf (wrapSigned 64 tid)) (decNat (wrapSigned 64 tid).natAbs) ++
        sep ++ padField true false 7 [] (cstr label) ++ sep ++ (cstr format ++ ['\n'])) := by
  simp [headFormat, expand, scanChar, dotOrLength, lengthOrFinish, finish, convert,
    convertSigned, convertText, intBits, withPrecision, Directive.blank, backToText, sep,
    padField_plain, signText_plain]

theorem cstr_headFormat : cstr headFormat = headFormat := by decide

theorem composeMessage_eq (amb : Ambient) (label format : List Char) :
    composeMessage amb label format =
      some ((lineHead amb label ++ (cstr format ++ ['\n'])).take (kOutputBufferSize - 1)) := by
  unfold composeMessage snprintf
  rw [cstr_headFormat, expand_headFormat]
  rfl

/-! ## Auxiliary facts: the head of a line -/

theorem timestampArg_eq (amb : Ambient) :
    timestampArg amb = if amb.isoTime.length < kDateTimeBufferSize then amb.isoTime else [] := by
  unfold timestampArg strftime
  by_cases h : amb.isoTime.length < kDateTimeBufferSize
  · simp only [h, if_true]
    split
    · rfl
    · rename_i h0
      have : amb.isoTime.length = 0 := by omega
      exact (List.length_eq_zero.1 this).symm
  · simp [h]

theorem timestampArg_mem (amb : Ambient) : ∀ c ∈ timestampArg amb, c ∈ amb.isoTime := by
  intro c hc
  rw [timestampArg_eq] at hc
  split at hc
  · exact hc
  · simp at hc

theorem timestampArg_length (amb : Ambient) :
    (timestampArg amb).length ≤ kDateTimeBufferSize - 1 := by
  rw [timestampArg_eq]
  split
  · omega
  · simp

theorem sep_mem : ∀ c ∈ sep, c ∈ fieldChars := by decide

theorem lineHead_mem (amb : Ambient) (label : List Char) :
    ∀ c ∈ lineHead amb label,
      (c ∈ amb.isoTime ∧ c ≠ NUL) ∨ (c ∈ label ∧ c ≠ NUL) ∨ c ∈ fieldChars := by
  intro c hc
  have hfield : ∀ (l z : Bool) (w : Nat) (x : Int),
      c ∈ padField l z w (signOf x) (decNat x.natAbs) → c ∈ fieldChars := by
    intro l z w x h
    rcases padField_mem _ _ _ _ _ c h with h | h | h
    · exact signOf_mem _ c h
    · exact decNat_mem _ c h
    · exact h
  unfold lineHead at hc
  simp only [List.mem_append] at hc
  rcases hc with ((((((h | h) | h) | h) | h) | h) | h) | h
  · exact Or.inl ⟨timestampArg_mem amb c (cstr_mem _ c h), cstr_ne_nul _ c h⟩
  · exact Or.inr (Or.inr (sep_mem c h))
  · exact Or.inr (Or.inr (hfield _ _ _ _ h))
  · exact Or.inr (Or.inr (sep_mem c h))
  · exact Or.inr (Or.inr (hfield _ _ _ _ h))
  · exact Or.inr (Or.inr (sep_mem c h))
  · rcases padField_mem _ _ _ _ _ c h with h | h | h
    · simp at h
    · exact Or.inr (Or.inl ⟨cstr_mem _ c h, cstr_ne_nul _ c h⟩)
    · exact Or.inr (Or.inr h)
  · exact Or.inr (Or.inr (sep_mem c h))

theorem lineHead_ne_nul (amb : Ambient) (label : List Char) :
    ∀ c ∈ lineHead amb label, c ≠ NUL := by
  intro c hc
  rcases lineHead_mem amb label c hc with h | h | h
  · exact h.2
  · exact h.2
  · exact (fieldChars_ne c h).2

theorem lineHead_ne_percent (amb : Ambient) (label : List Char)
    (hts : ∀ c ∈ amb.isoTime, c ≠ '%') (hlab : ∀ c ∈ label, c ≠ '%') :
    ∀ c ∈ lineHead amb label, c ≠ '%' := by
  intro c hc
  rcases lineHead_mem amb label c hc with h | h | h
  · exact hts c h.1
  · exact hlab c h.1
  · exact (fieldChars_ne c h).1

/-- The bytes written by `vLogMessage`, in closed form: the head of the line, then
the expansion of what the buffer kept of the format and its newline, cut to the room
left and read as a C string. -/
theorem render_eq (amb : Ambient) (label format : List Char) (args : List Arg)
    (hts : ∀ c ∈ amb.isoTime, c ≠ '%') (hlab : ∀ c ∈ label, c ≠ '%')
    (hlen : (lineHead amb label).length ≤ kOutputBufferSize - 1) :
    render amb label format args =
      (expand ((cstr format ++ ['\n']).take (room amb label)) Scan.text args).map
        (fun body => lineHead amb label ++ cstr (body.take (room amb label))) := by
  have hcut : ∀ X : List Char, (lineHead amb label ++ X).take (kOutputBufferSize - 1) =
      lineHead amb label ++ X.take (room amb label) := by
    intro X
    rw [List.take_append_eq_append_take, List.take_of_length_le hlen]
    rfl
  have hnul : ∀ c ∈ lineHead amb label ++ (cstr format ++ ['\n']).take (room amb label),
      c ≠ NUL := by
    intro c hc
    rcases List.mem_append.1 hc with h | h
    · exact lineHead_ne_nul amb label c h
    · rcases List.mem_append.1 (List.mem_of_mem_take h) with h | h
      · exact cstr_ne_nul _ c h
      · rw [List.mem_singleton.1 h]; decide
  unfold render
  rw [composeMessage_eq, hcut]
  dsimp only
  unfold snprintf
  rw [cstr_eq_self _ hnul, expand_literal _ _ _ (lineHead_ne_percent amb label hts hlab)]
  cases expand ((cstr format ++ ['\n']).take (room amb label)) Scan.text args with
  | none => rfl
  | some body =>
    simp only [Option.map]
    rw [hcut, cstr_append _ _ (lineHead_ne_nul amb label)]

theorem isoTimestamp_ne_percent {ts : List Char} (h : isoTimestamp ts = true) :
    ∀ c ∈ ts, c ≠ '%' := by
  intro c hc hp
  subst hp
  have := List.all_eq_true.1 h _ hc
  revert this
  decide

theorem isoTimestamp_ne_nul {ts : List Char} (h : isoTimestamp ts = true) :
    ∀ c ∈ ts, c ≠ NUL := by
  intro c hc hp
  subst hp
  have := List.all_eq_true.1 h _ hc
  revert this
  decide

theorem wrapSigned_32_natAbs (v : Int) : (wrapSigned 32 v).natAbs < 10 ^ 10 := by
  unfold wrapSigned
  have h1 := Int.emod_nonneg v (show (2 : Int) ^ 32 ≠ 0 by norm_num)
  have h2 := Int.emod_lt_of_pos v (show (0 : Int) < 2 ^ 32 by norm_num)
  dsimp only
  split <;> omega

theorem wrapSigned_64_natAbs (v : Int) : (wrapSigned 64 v).natAbs < 10 ^ 19 := by
  unfold wrapSigned
  have h1 := Int.emod_nonneg v (show (2 : Int) ^ 64 ≠ 0 by norm_num)
  have h2 := Int.emod_lt_of_pos v (show (0 : Int) < 2 ^ 64 by norm_num)
  dsimp only
  split <;> omega

theorem label_ne_percent (L : Level) : ∀ c ∈ L.label, c ≠ '%' := by
  cases L <;> decide

theorem label_field (L : Level) : padField true false 7 [] (cstr L.label) = padRight 7 L.label := by
  cases L <;> decide

theorem padRight_label_length (L : Level) : (padRight 7 L.label).length = 7 := by
  cases L <;> decide

theorem lineHead_length_le (amb : Ambient) (L : Level) :
    (lineHead amb L.label).length ≤ 149 := by
  have h1 := cstr_length_le (timestampArg amb)
  have h2 := timestampArg_length amb
  have h3 := decNat_length_le _ 10 (wrapSigned_32_natAbs amb.pid) (by decide)
  have h4 := decNat_length_le _ 19 (wrapSigned_64_natAbs amb.tid) (by decide)
  have h5 := signOf_length_le (wrapSigned 32 amb.pid)
  have h6 := signOf_length_le (wrapSigned 64 amb.tid)
  have h7 : sep.length = 3 := by decide
  have h8 : kDateTimeBufferSize = 100 := rfl
  unfold lineHead
  simp only [List.length_append, padField_length, label_field, padRight_label_length, h7]
  omega

theorem convert_newline (d : Directive) (args : List Arg) :
    convert { d with conv := '\n' } args = none := by
  simp [convert]

theorem scanChar_newline (stage : Stage) (d : Directive) (args : List Arg) :
    scanChar (Scan.spec stage d) '\n' args = none := by
  have hc := convert_newline d args
  cases stage <;>
    simp [scanChar, dotOrLength, lengthOrFinish, finish, backToText, hc]

theorem expand_newline_end (fmt : List Char) : ∀ (s : Scan) (args : List Arg) (r : List Char),
    expand (fmt ++ ['\n']) s args = some r → ∃ r1, r = r1 ++ ['\n'] := by
  induction fmt with
  | nil =>
    intro s args r h
    cases s with
    | text =>
      refine ⟨[], ?_⟩
      simpa [expand, scanChar] using h.symm
    | spec stage d =>
      rw [List.nil_append] at h
      simp only [expand, scanChar_newline] at h
      exact absurd h (by simp)
  | cons c cs ih =>
    intro s args r h
    rw [List.cons_append] at h
    simp only [expand] at h
    cases hs : scanChar s c args with
    | none => simp [hs] at h
    | some v =>
      obtain ⟨s1, t, rest⟩ := v
      simp only [hs] at h
      cases he : expand (cs ++ ['\n']) s1 rest with
      | none => simp [he] at h
      | some out =>
        simp only [he, Option.some.injEq] at h
        obtain ⟨r1, hr1⟩ := ih s1 rest out he
        exact ⟨t ++ r1, by rw [← h, hr1, List.append_assoc]⟩

/-- When the composed message and the rendered line both fit, and the expansion holds
no NUL, `vLogMessage` writes the head, the expansion and one newline. -/
theorem render_fits (amb : Ambient) (label format : List Char) (args : List Arg)
    (body : List Char)
    (hts : ∀ c ∈ amb.isoTime, c ≠ '%') (hlab : ∀ c ∈ label, c ≠ '%')
    (hbody : expand (cstr format) Scan.text args = some body)
    (hnul : ∀ c ∈ body, c ≠ NUL)
    (hmsg : (lineHead amb label).length + (cstr format).length + 1 ≤ kOutputBufferSize - 1)
    (hout : (lineHead amb label).length + body.length + 1 ≤ kOutputBufferSize - 1) :
    render amb label format args = some (lineHead amb label ++ body ++ ['\n']) := by
  have hlen : (lineHead amb label).length ≤ kOutputBufferSize - 1 := by omega
  have h1 : (cstr format ++ ['\n']).take (room amb label) = cstr format ++ ['\n'] := by
    apply List.take_of_length_le
    unfold room
    simp only [List.length_append, List.length_singleton]
    omega
  have h2 : (body ++ ['\n']).take (room amb label) = body ++ ['\n'] := by
    apply List.take_of_length_le
    unfold room
    simp only [List.length_append, List.length_singleton]
    omega
  have h3 : cstr (body ++ ['\n']) = body ++ ['\n'] := by
    apply cstr_eq_self
    intro c hc
    rcases List.mem_append.1 hc with h | h
    · exact hnul c h
    · rw [List.mem_singleton.1 h]; decide
  rw [render_eq amb label format args hts hlab hlen, h1,
    expand_append_newline _ _ _ _ hbody]
  simp only [Option.map, h2, h3, List.append_assoc]

/-- Every line written for a level starts with the head laid out for that level. -/
theorem render_head (amb : Ambient) (L : Level) (format : List Char) (args : List Arg)
    (line : List Char) (hts : isoTimestamp amb.isoTime = true)
    (h : render amb L.label format args = some line) :
    ∃ rest, line = lineHead amb L.label ++ rest := by
  have hk : (149 : Nat) ≤ kOutputBufferSize - 1 := by decide
  have hlen : (lineHead amb L.label).length ≤ kOutputBufferSize - 1 :=
    le_trans (lineHead_length_le amb L) hk
  rw [render_eq amb L.label format args (isoTimestamp_ne_percent hts) (label_ne_percent L)
    hlen] at h
  cases he : expand ((cstr format ++ ['\n']).take (room amb L.label)) Scan.text args with
  | none =>
    rw [he, Option.map_none'] at h
    exact absurd h (by simp)
  | some body =>
    rw [he, Option.map_some'] at h
    exact ⟨cstr (body.take (room amb L.label)), (Option.some.inj h).symm⟩

theorem wrapSigned_32_eq (v : Int) (h : -2 ^ 31 ≤ v ∧ v < 2 ^ 31) : wrapSigned 32 v = v := by
  unfold wrapSigned
  dsimp only
  norm_num at h ⊢
  split <;> omega

theorem wrapSigned_64_eq (t : Nat) (h : t < 2 ^ 63) : wrapSigned 64 (t : Int) = (t : Int) := by
  unfold wrapSigned
  dsimp only
  norm_num at h ⊢
  split <;> omega

theorem signed_field (w : Nat) (x : Int) :
    padField false false w (signOf x) (decNat x.natAbs) = padLeft w (decInt x) := by
  unfold padField padLeft decInt signOf
  by_cases hx : x < 0 <;> simp [hx, Nat.add_comm]

/-- The head the code lays out is the head the specification words, when the thread id
is below `2 ^ 63` and the pid is an `int`. -/
theorem lineHead_eq_spec (amb : Ambient) (L : Level) (hts : isoTimestamp amb.isoTime = true)
    (hpid : -2 ^ 31 ≤ amb.pid ∧ amb.pid < 2 ^ 31) (htid : amb.tid < 2 ^ 63) :
    lineHead amb L.label =
      (if amb.isoTime.length < kDateTimeBufferSize then amb.isoTime else []) ++ sep ++
        padLeft 6 (decInt amb.pid) ++ sep ++ decNat amb.tid ++ sep ++
        padRight 7 L.label ++ sep := by
  have h1 : cstr (timestampArg amb) =
      (if amb.isoTime.length < kDateTimeBufferSize then amb.isoTime else []) := by
    rw [← timestampArg_eq]
    exact cstr_eq_self _ (fun c hc => isoTimestamp_ne_nul hts c (timestampArg_mem amb c hc))
  have h2 : signOf ((amb.tid : Int)) = [] := by
    unfold signOf
    rw [if_neg (by omega)]
  unfold lineHead
  rw [h1, wrapSigned_32_eq _ hpid, wrapSigned_64_eq _ htid, signed_field, label_field, h2,
    padField_plain, Int.natAbs_ofNat]

/-! ## Auxiliary facts: the expectation of the test -/

theorem startsWith_append (needle post : List Char) :
    startsWith needle (needle ++ post) = true := by
  induction needle with
  | nil => rfl
  | cons a as ih => simp [startsWith, ih]

theorem strstr_append (needle post : List Char) : ∀ pre : List Char,
    strstr needle (pre ++ (needle ++ post)) = true := by
  intro pre
  induction pre with
  | nil =>
    cases h : needle ++ post with
    | nil =>
      have hn : needle = [] := (List.append_eq_nil.1 h).1
      subst hn
      rfl
    | cons c cs =>
      rw [List.nil_append]
      unfold strstr
      rw [← h, startsWith_append]
      rfl
  | cons c cs ih =>
    rw [List.cons_append]
    unfold strstr
    rw [ih, Bool.or_true]

theorem replicate_blank_comm (k : Nat) :
    ' ' :: List.replicate k ' ' = List.replicate k ' ' ++ [' '] := by
  induction k with
  | zero => rfl
  | succ n ih => rw [List.replicate_succ, List.cons_append, ← ih]

/-- The head of a line holds the pid, the thread id and the label as the test expects
them, as long as the thread id is below `2 ^ 63`. -/
theorem lineHead_holds_specTag (amb : Ambient) (L : Level)
    (hts : isoTimestamp amb.isoTime = true)
    (hpid : -2 ^ 31 ≤ amb.pid ∧ amb.pid < 2 ^ 31) (htid : amb.tid < 2 ^ 63) :
    ∃ pre post, lineHead amb L.label = pre ++ (specTag amb.pid amb.tid L.label ++ post) := by
  refine ⟨(if amb.isoTime.length < kDateTimeBufferSize then amb.isoTime else []) ++
      [' ', '|'] ++ List.replicate (6 - (decInt amb.pid).length) ' ',
    List.replicate (7 - L.label.length) ' ' ++ sep, ?_⟩
  rw [lineHead_eq_spec amb L hts hpid htid]
  have hsep : sep = [' ', '|'] ++ [' '] := rfl
  have hpad : sep ++ padLeft 6 (decInt amb.pid) =
      [' ', '|'] ++ List.replicate (6 - (decInt amb.pid).length) ' ' ++
        (' ' :: decInt amb.pid) := by
    unfold padLeft
    rw [hsep]
    simp only [List.append_assoc, List.singleton_append, List.cons_append, List.nil_append]
    rw [← List.cons_append, replicate_blank_comm]
    simp only [List.append_assoc, List.singleton_append]
  unfold specTag padRight
  simp only [List.append_assoc]
  rw [← List.append_assoc sep (padLeft 6 (decInt amb.pid)), hpad]
  simp only [List.append_assoc, List.cons_append]

/-- For a thread id below `2 ^ 63` the assertion of the test holds on every line written
for a level: `strstr` finds the expected substring. -/
theorem render_holds_specTag (amb : Ambient) (L : Level) (format : List Char)
    (args : List Arg) (line : List Char)
    (hts : isoTimestamp amb.isoTime = true)
    (hpid : -2 ^ 31 ≤ amb.pid ∧ amb.pid < 2 ^ 31) (htid : amb.tid < 2 ^ 63)
    (h : render amb L.label format args = some line) :
    strstr (specTag amb.pid amb.tid L.label) line = true := by
  obtain ⟨rest, hrest⟩ := render_head amb L format args line hts h
  obtain ⟨pre, post, hp⟩ := lineHead_holds_specTag amb L hts hpid htid
  rw [hrest, hp]
  simp only [List.append_assoc]
  exact strstr_append _ _ _

theorem wrapUnsigned_64_eq (t : Nat) (h : t < 2 ^ 64) : wrapUnsigned 64 (t : Int) = t := by
  unfold wrapUnsigned
  norm_num at h ⊢
  omega

theorem padLeft_zero (s : List Char) : padLeft 0 s = s := by
  simp [padLeft]

/-- The string the test builds with `sprintf` is the substring the specification asks
for: the pid as a signed decimal and the thread id as an unsigned decimal. -/
theorem expected_eq_specTag (amb : Ambient) (L : Level)
    (hpid : -2 ^ 31 ≤ amb.pid ∧ amb.pid < 2 ^ 31) (htid : amb.tid < 2 ^ 64) :
    expected amb L.label = some (specTag amb.pid amb.tid L.label) := by
  have h1 := wrapSigned_32_eq _ hpid
  have h2 := wrapUnsigned_64_eq _ htid
  have h3 := signed_field 0 amb.pid
  cases L <;>
    simp [expected, expectedFormat, Level.label, cstr, NUL, expand, scanChar, dotOrLength,
      lengthOrFinish, finish, convert, convertSigned, convertUnsigned, radixDigits, intBits,
      withPrecision, Directive.blank, backToText, specTag, sep, padField_plain,
      signText_plain, h1, h2, h3, padLeft_zero]

/-! ## Auxiliary facts: lines of a stream -/

theorem linesOf_line (l rest : List Char) (h : ∀ c ∈ l, c ≠ '\n') :
    linesOf (l ++ '\n' :: rest) = l :: linesOf rest := by
  induction l with
  | nil => simp [linesOf]
  | cons a as ih =>
    have ha : a ≠ '\n' := h a (List.mem_cons_self _ _)
    have ih1 := ih (fun c hc => h c (List.mem_cons_of_mem _ hc))
    rw [List.cons_append]
    simp only [linesOf, if_neg ha, ih1]

theorem linesOf_flatten (ls : List (List Char)) (h : ∀ l ∈ ls, ∀ c ∈ l, c ≠ '\n') :
    linesOf ((ls.map (fun l => l ++ ['\n'])).flatten) = ls := by
  induction ls with
  | nil => rfl
  | cons l rest ih =>
    rw [List.map_cons, List.flatten_cons, List.append_assoc, List.singleton_append,
      linesOf_line l _ (h l (List.mem_cons_self _ _)),
      ih (fun x hx => h x (List.mem_cons_of_mem _ hx))]

/-- C1: for every threshold held in `vLogLevel` and every level `L`, the emit guard of
`L` makes the `vLogMessage` call (with the label of `L`, on the evaluated arguments)
if and only if the threshold is nonzero and the rank of `L` is at least the
threshold; otherwise the state is left as it was. -/
theorem emit_calls_vLogMessage_iff (L : Level) (amb : Ambient) (format : List Char)
    (args : ArgsExpr) (st : State) :
    (emit L amb format args st).state =
      if st.vLogLevel ≠ 0 ∧ L.rank ≥ st.vLogLevel then
        vLogMessage amb L.label format (args st).1 (args st).2
      else st := by
  by_cases h : st.vLogLevel ≠ 0 ∧ L.rank ≥ st.vLogLevel
  · rw [if_pos h]
    cases L <;>
      simp only [Level.rank, ge_iff_le] at h <;>
      simp only [emit, Trace, Debug, Info, Warn, Error, Fatal, Level.label, if_pos h,
        Outcome.state]
  · rw [if_neg h]
    cases L <;>
      simp only [Level.rank, ge_iff_le] at h <;>
      simp only [emit, Trace, Debug, Info, Warn, Error, Fatal, if_neg h, Outcome.state]

/-- Threshold left by `vLogInit`, whatever the path and the file system answer. -/
theorem vLogInit_vLogLevel (fs : FileSys) (level : Int) (path : Option (List Char))
    (st : State) :
    (vLogInit fs level path st).2.vLogLevel =
      (if LOG_OFF ≤ level ∧ level ≤ LOG_FATAL then level else st.vLogLevel) := by
  unfold vLogInit reopen
  cases path with
  | none => dsimp only; split_ifs <;> rfl
  | some p =>
    dsimp only
    cases fs.accessF p <;> cases fs.accessW p <;> cases fs.freopen p <;>
      dsimp only <;> split_ifs <;> rfl

/-- C3: `vLogInit` sets `vLogLevel` to `level` when `LOG_OFF <= level <= LOG_FATAL` and
leaves it as it was otherwise, whatever the path; after `vLogInit(LOG_INFO, NULL)` and
`vLogInit(9999, NULL)` the threshold is `LOG_INFO` and `Debug` does nothing. -/
theorem vLogInit_level (fs : FileSys) (level : Int) (path : Option (List Char)) (st : State) :
    (vLogInit fs level path st).2.vLogLevel =
        (if LOG_OFF ≤ level ∧ level ≤ LOG_FATAL then level else st.vLogLevel) ∧
      (vLogInit fs 9999 none (vLogInit fs LOG_INFO none st).2).2.vLogLevel = LOG_INFO ∧
      ∀ (amb : Ambient) (format : List Char) (args : ArgsExpr),
        Debug amb format args (vLogInit fs 9999 none (vLogInit fs LOG_INFO none st).2).2 =
          (vLogInit fs 9999 none (vLogInit fs LOG_INFO none st).2).2 := by
  refine ⟨vLogInit_vLogLevel fs level path st, ?_, ?_⟩
  · simp [vLogInit, LOG_OFF, LOG_FATAL, LOG_INFO]
  · intro amb format args
    simp [vLogInit, Debug, LOG_OFF, LOG_FATAL, LOG_INFO, LOG_DEBUG]

/-- C4 (counterexample): a failing `vLogInit` can still change the threshold (here from
`LOG_INFO` to `LOG_DEBUG`, the path being unwritable), and a failing `freopen` leaves
the error stream closed instead of at its prior destination. -/
theorem vLogInit_failure_not_atomic :
    ((vLogInit fsReadOnly LOG_DEBUG (some varLogPath) State.initial).1 = false ∧
      State.initial.vLogLevel = LOG_INFO ∧
      (vLogInit fsReadOnly LOG_DEBUG (some varLogPath) State.initial).2.vLogLevel = LOG_DEBUG) ∧
    ((vLogInit fsNoCreate LOG_INFO (some varLogPath) State.initial).1 = false ∧
      State.initial.dest = Dest.stderr ∧
      (vLogInit fsNoCreate LOG_INFO (some varLogPath) State.initial).2.dest = Dest.closed) := by
  decide

/-- C4 (amended): when `vLogInit` returns false, the threshold has nevertheless been set
to `level` if `level` is within `LOG_OFF .. LOG_FATAL` (and is unchanged otherwise),
nothing has been written, and a path was given for which either the writability check
failed, the destination being the prior one, or the check passed and `freopen` failed,
the error stream being closed. -/
theorem vLogInit_failure_effect (fs : FileSys) (level : Int) (path : Option (List Char))
    (st : State) (h : (vLogInit fs level path st).1 = false) :
    (vLogInit fs level path st).2.vLogLevel =
        (if LOG_OFF ≤ level ∧ level ≤ LOG_FATAL then level else st.vLogLevel) ∧
      (vLogInit fs level path st).2.written = st.written ∧
      ∃ p, path = some p ∧
        ((fs.accessF p = none ∧ fs.accessW p ≠ none ∧
            (vLogInit fs level path st).2.dest = st.dest) ∨
          (¬ (fs.accessF p = none ∧ fs.accessW p ≠ none) ∧ fs.freopen p ≠ none ∧
            (vLogInit fs level path st).2.dest = Dest.closed)) := by
  refine ⟨vLogInit_vLogLevel fs level path st, ?_, ?_⟩
  · unfold vLogInit reopen
    cases path with
    | none => dsimp only; split_ifs <;> rfl
    | some p =>
      dsimp only
      cases fs.accessF p <;> cases fs.accessW p <;> cases fs.freopen p <;>
        dsimp only <;> split_ifs <;> rfl
  · cases path with
    | none => simp [vLogInit] at h
    | some p =>
      refine ⟨p, rfl, ?_⟩
      unfold vLogInit reopen at h ⊢
      dsimp only at h ⊢
      cases hF : fs.accessF p <;> cases hW : fs.accessW p <;> cases hR : fs.freopen p <;>
        simp only [hF, hW, hR] at h ⊢ <;>
        first
          | exact absurd h (by decide)
          | (simp; done)
          | (simp; split_ifs <;> rfl)

/-- C4 (amended), instance: the unwritable path of the test, at level `LOG_DEBUG`. -/
theorem vLogInit_failure_effect_witness :
    (vLogInit fsReadOnly LOG_DEBUG (some varLogPath) State.initial).1 = false ∧
      ((vLogInit fsReadOnly LOG_DEBUG (some varLogPath) State.initial).2.vLogLevel =
          (if LOG_OFF ≤ LOG_DEBUG ∧ LOG_DEBUG ≤ LOG_FATAL then LOG_DEBUG
           else State.initial.vLogLevel) ∧
        (vLogInit fsReadOnly LOG_DEBUG (some varLogPath) State.initial).2.written =
          State.initial.written ∧
        ∃ p, some varLogPath = some p ∧
          ((fsReadOnly.accessF p = none ∧ fsReadOnly.accessW p ≠ none ∧
              (vLogInit fsReadOnly LOG_DEBUG (some varLogPath) State.initial).2.dest =
                State.initial.dest) ∨
            (¬ (fsReadOnly.accessF p = none ∧ fsReadOnly.accessW p ≠ none) ∧
              fsReadOnly.freopen p ≠ none ∧
              (vLogInit fsReadOnly LOG_DEBUG (some varLogPath) State.initial).2.dest =
                Dest.closed))) :=
  ⟨by decide,
    vLogInit_failure_effect fsReadOnly LOG_DEBUG (some varLogPath) State.initial (by decide)⟩

/-- C5: `vLogInit` returns false if and only if a path is given (not NULL) and either the
path exists and the write-access check fails, or `freopen` in append mode fails; the
level plays no part. The unwritable path of the test gives false, NULL gives true, a
path that can be created gives true. -/
theorem vLogInit_false_iff (fs : FileSys) (level : Int) (path : Option (List Char))
    (st : State) :
    ((vLogInit fs level path st).1 = false ↔
        ∃ p, path = some p ∧
          ((fs.accessF p = none ∧ fs.accessW p ≠ none) ∨ fs.freopen p ≠ none)) ∧
      (vLogInit fsReadOnly level (some varLogPath) st).1 = false ∧
      (vLogInit fs level none st).1 = true ∧
      (vLogInit fsFresh level (some tmpLogPath) st).1 = true := by
  refine ⟨?_, ?_, ?_, ?_⟩
  · cases path with
    | none => simp [vLogInit]
    | some p =>
      unfold vLogInit reopen
      dsimp only
      cases hF : fs.accessF p <;> cases hW : fs.accessW p <;> cases hR : fs.freopen p <;>
        simp [hF, hW, hR]
  · simp [vLogInit, fsReadOnly]
  · simp [vLogInit]
  · simp [vLogInit, reopen, fsFresh, tmpLogPath]

/-- C6 (counterexample): the empty string is not treated as an absent path. On a file
system that has no file of that name, `vLogInit(LOG_INFO, "")` attempts the reopen,
fails, and leaves the error stream closed. -/
theorem vLogInit_empty_path_fails :
    (vLogInit fsFresh LOG_INFO (some []) State.initial).1 = false ∧
      (vLogInit fsFresh LOG_INFO (some []) State.initial).2.dest = Dest.closed ∧
      State.initial.dest = Dest.stderr := by
  decide

/-- C6 (amended): with a NULL path `vLogInit` consults no file and redirects nothing: it
returns true and leaves destination, `errno` and output as they were, whatever the file
system would answer. The empty string is a path like any other: the call succeeds
exactly when the check passes and `freopen` succeeds, and the stream is then bound to
that path. -/
theorem vLogInit_null_path (fs : FileSys) (level : Int) (st : State) :
    ((vLogInit fs level none st).1 = true ∧
        (vLogInit fs level none st).2.dest = st.dest ∧
        (vLogInit fs level none st).2.errno = st.errno ∧
        (vLogInit fs level none st).2.written = st.written) ∧
      ((vLogInit fs level (some []) st).1 =
          (!decide (fs.accessF [] = none ∧ fs.accessW [] ≠ none) &&
            decide (fs.freopen [] = none)) ∧
        (vLogInit fs level (some []) st).2.dest =
          (if fs.accessF [] = none ∧ fs.accessW [] ≠ none then st.dest
           else if fs.freopen [] = none then Dest.file [] else Dest.closed)) := by
  refine ⟨⟨?_, ?_, ?_, ?_⟩, ?_, ?_⟩
  · simp [vLogInit]
  · unfold vLogInit; dsimp only; split_ifs <;> rfl
  · unfold vLogInit; dsimp only; split_ifs <;> rfl
  · unfold vLogInit; dsimp only; split_ifs <;> rfl
  · unfold vLogInit reopen
    dsimp only
    cases hF : fs.accessF [] <;> cases hW : fs.accessW [] <;> cases hR : fs.freopen [] <;>
      simp [hF, hW, hR]
  · unfold vLogInit reopen
    dsimp only
    cases hF : fs.accessF [] <;> cases hW : fs.accessW [] <;> cases hR : fs.freopen [] <;>
      simp only [hF, hW, hR] <;> split_ifs <;> simp_all

/-- C9 (code at the failing input): `Fatal` reads `errno` after `vLogMessage` has run, so
a failing `write` replaces the error code that was pending at the call. With `errno`
13 pending and the error stream closed the process exits with 9 (`EBADF`); with no
error pending and a `write` that fails with 28 it exits with 28 and not with
`EXIT_FAILURE`; and with no error pending and a `write` that succeeds, a library call
inside `vLogMessage` that leaves 2 in `errno` makes it exit with 2. -/
theorem Fatal_exit_status_after_failed_write :
    (stBroken.errno = 13 ∧ stBroken.dest = Dest.closed ∧
      Fatal ambSample "cannot open the log".toList (pureArgs []) stBroken =
        Outcome.exits 9 { stBroken with errno := 9 }) ∧
    (State.initial.errno = 0 ∧
      Fatal ambDiskFull "stop".toList (pureArgs []) State.initial =
        Outcome.exits 28 { State.initial with errno := 28 }) ∧
    (State.initial.errno = 0 ∧
      Fatal ambTzMissing "stop".toList (pureArgs []) State.initial =
        Outcome.exits 2
          { State.initial with
            errno := 2,
            written := [(Dest.stderr,
              "2022-04-07T16:09:33+0100 |   4242 | 140737348 | FATAL   | stop\n".toList)] }) := by
  decide!

/-- C10: each conditional emit operation with a false predicate hands back the state
untouched (nothing written, no exit, the argument expressions not evaluated), and with
a true predicate is the unconditional operation of the same level. -/
theorem conditional_emit (amb : Ambient) (format : List Char) (args : ArgsExpr) (st : State) :
    (InfoIf false amb format args st = st ∧
      InfoIf true amb format args st = Info amb format args st) ∧
    (WarnIf false amb format args st = st ∧
      WarnIf true amb format args st = Warn amb format args st) ∧
    (ErrorIf false amb format args st = st ∧
      ErrorIf true amb format args st = Error amb format args st) ∧
    (FatalIf false amb format args st = Outcome.returns st ∧
      FatalIf true amb format args st = Fatal amb format args st) := by
  refine ⟨⟨?_, ?_⟩, ⟨?_, ?_⟩, ⟨?_, ?_⟩, ⟨?_, ?_⟩⟩
  · simp [InfoIf]
  · simp [InfoIf]
  · simp [WarnIf]
  · simp [WarnIf]
  · simp [ErrorIf]
  · simp [ErrorIf]
  · simp [FatalIf]
  · simp [FatalIf]

/-- C7 (counterexample): a line that would fit the output buffer is still not written as
documented. With a format of 1001 bytes that expands to 501, the first `snprintf` cuts
the composed message to 1023 bytes before any expansion, so only 483 bytes of the
message are written and no newline; and a `%c` given 0 puts a NUL in the line, at which
`strlen` stops, so the rest of the line and the newline are not written. -/
theorem render_not_documented_line :
    (expand (cstr longFormat) Scan.text [] = some ('x' :: List.replicate 500 '%') ∧
      (specLine ambSample.isoTime ambSample.pid ambSample.tid Level.info.label
        ('x' :: List.replicate 500 '%')).length = 560 ∧
      render ambSample Level.info.label longFormat [] =
        some ("2022-04-07T16:09:33+0100 |   4242 | 140737348 | INFO    | x".toList ++
          List.replicate 482 '%')) ∧
    (expand (cstr "%c|".toList) Scan.text [Arg.int 0] = some [NUL, '|'] ∧
      render ambSample Level.info.label "%c|".toList [Arg.int 0] =
        some "2022-04-07T16:09:33+0100 |   4242 | 140737348 | INFO    | ".toList) := by
  decide!

/-- C7 (amended): for a timestamp made of ISO 8601 characters, a pid that is an `int`, a
thread id below `2 ^ 63`, one of the six labels, and a format and arguments whose
expansion ISO C defines (given here as `body`) and which holds no NUL, such that both
the composed message (head, raw format, newline) and the rendered line fit in the 1023
bytes of the buffers, the bytes written are exactly the documented line: timestamp, pid
right-aligned in 6 columns, thread id, label left-aligned in 7 columns, the expanded
format and a newline, fields separated by ` | `; the timestamp field is empty when
`strftime` could not render it. -/
theorem render_documented_line (amb : Ambient) (L : Level) (format : List Char)
    (args : List Arg) (body : List Char)
    (hts : isoTimestamp amb.isoTime = true)
    (hpid : -2 ^ 31 ≤ amb.pid ∧ amb.pid < 2 ^ 31)
    (htid : amb.tid < 2 ^ 63)
    (hbody : expand (cstr format) Scan.text args = some body)
    (hnul : ∀ c ∈ body, c ≠ NUL)
    (hmsg : (specLine (if amb.isoTime.length < kDateTimeBufferSize then amb.isoTime else [])
        amb.pid amb.tid L.label (cstr format)).length ≤ kOutputBufferSize - 1)
    (hout : (specLine (if amb.isoTime.length < kDateTimeBufferSize then amb.isoTime else [])
        amb.pid amb.tid L.label body).length ≤ kOutputBufferSize - 1) :
    render amb L.label format args =
      some (specLine (if amb.isoTime.length < kDateTimeBufferSize then amb.isoTime else [])
        amb.pid amb.tid L.label body) := by
  have hspec : ∀ X : List Char,
      specLine (if amb.isoTime.length < kDateTimeBufferSize then amb.isoTime else [])
        amb.pid amb.tid L.label X = lineHead amb L.label ++ X ++ ['\n'] := by
    intro X
    rw [lineHead_eq_spec amb L hts hpid htid]
    rfl
  rw [hspec] at hmsg hout ⊢
  simp only [List.length_append, List.length_singleton] at hmsg hout
  exact render_fits amb L.label format args body (isoTimestamp_ne_percent hts)
    (label_ne_percent L) hbody hnul hmsg hout

/-- C7 (amended), instance: the `Info` call of the test. -/
theorem render_documented_line_witness :
    isoTimestamp ambSample.isoTime = true ∧
      expand (cstr "A simple info message with param: %d".toList) Scan.text [Arg.int 11] =
        some "A simple info message with param: 11".toList ∧
      render ambSample Level.info.label "A simple info message with param: %d".toList
          [Arg.int 11] =
        some (specLine
          (if ambSample.isoTime.length < kDateTimeBufferSize then ambSample.isoTime else [])
          ambSample.pid ambSample.tid Level.info.label
          "A simple info message with param: 11".toList) :=
  ⟨by decide, by decide!,
    render_documented_line ambSample Level.info "A simple info message with param: %d".toList
      [Arg.int 11] "A simple info message with param: 11".toList (by decide) (by decide)
      (by decide) (by decide!) (by decide) (by decide!) (by decide!)⟩

/-- C8 (counterexample): the written buffer need not end in exactly one newline. A format
that already ends in a newline is written with two, a format too long for the
1024-byte buffer is cut to 1023 bytes and written without any newline, and a label that
holds a directive is expanded with the message: `vLogMessage("%c", "x", 0)` writes the
head up to the label and no newline. -/
theorem render_newline_count :
    render ambSample Level.info.label "done\n".toList [] =
      some "2022-04-07T16:09:33+0100 |   4242 | 140737348 | INFO    | done\n\n".toList ∧
    (render ambSample Level.info.label plainLongFormat []).map
      (fun line => (line.length, line.getLast?)) = some (1023, some 'a') ∧
    render ambSample "%c".toList "x".toList [Arg.int 0] =
      some "2022-04-07T16:09:33+0100 |   4242 | 140737348 | ".toList := by
  decide!

/-- C8 (amended): for a timestamp made of ISO 8601 characters, every label that holds no
`%` (each of the six level labels is one) and every format and arguments whose
expansion ISO C defines (given here as `body`) and which holds no NUL, when the composed
message and the rendered line fit in 1023 bytes, the buffer written is the head, the
expanded format and one newline, so it ends in a newline; that newline is added whether
or not the format ends in one, in which case the expansion itself ends in a newline and
the buffer ends in two. -/
theorem render_appends_newline (amb : Ambient) (label format : List Char)
    (args : List Arg) (body : List Char)
    (hts : isoTimestamp amb.isoTime = true)
    (hlab : ∀ c ∈ label, c ≠ '%')
    (hbody : expand (cstr format) Scan.text args = some body)
    (hnul : ∀ c ∈ body, c ≠ NUL)
    (hmsg : (lineHead amb label).length + (cstr format).length + 1 ≤ kOutputBufferSize - 1)
    (hout : (lineHead amb label).length + body.length + 1 ≤ kOutputBufferSize - 1) :
    render amb label format args = some (lineHead amb label ++ body ++ ['\n']) ∧
      (lineHead amb label ++ body ++ ['\n']).getLast? = some '\n' ∧
      ∀ f, cstr format = f ++ ['\n'] → ∃ b, body = b ++ ['\n'] := by
  refine ⟨?_, ?_, ?_⟩
  · exact render_fits amb label format args body (isoTimestamp_ne_percent hts)
      hlab hbody hnul hmsg hout
  · simp
  · intro f hf
    rw [hf] at hbody
    exact expand_newline_end f Scan.text args body hbody

/-- C8 (amended), instance: a `Warn` call whose format ends in a newline. -/
theorem render_appends_newline_witness :
    expand (cstr "disk %d%% full\n".toList) Scan.text [Arg.int 93] =
        some "disk 93% full\n".toList ∧
      (render ambSample Level.warn.label "disk %d%% full\n".toList [Arg.int 93] =
          some (lineHead ambSample Level.warn.label ++ "disk 93% full\n".toList ++ ['\n']) ∧
        (lineHead ambSample Level.warn.label ++ "disk 93% full\n".toList ++ ['\n']).getLast? =
          some '\n' ∧
        ∀ f, cstr "disk %d%% full\n".toList = f ++ ['\n'] →
          ∃ b, "disk 93% full\n".toList = b ++ ['\n']) :=
  ⟨by decide!,
    render_appends_newline ambSample Level.warn.label "disk %d%% full\n".toList [Arg.int 93]
      "disk 93% full\n".toList (by decide) (by decide) (by decide!) (by decide) (by decide!)
      (by decide!)⟩

/-- C11 (code at the failing input): the thread id is converted with `%ld`, not with the
`%lu` of the test. For the thread id `2 ^ 63` the line written by `Info` shows
`-9223372036854775808`, the string the test expects is
` 4242 | 9223372036854775808 | INFO`, and `strstr` does not find it in the line. -/
theorem thread_id_printed_signed :
    render ambHighTid Level.info.label "x".toList [] =
      some ("2022-04-07T16:09:33+0100 |   4242 | -9223372036854775808 | INFO    | x\n".toList) ∧
    expected ambHighTid Level.info.label =
      some (specTag ambHighTid.pid ambHighTid.tid Level.info.label) ∧
    specTag ambHighTid.pid ambHighTid.tid Level.info.label =
      " 4242 | 9223372036854775808 | INFO".toList ∧
    (render ambHighTid Level.info.label "x".toList []).map
      (strstr (specTag ambHighTid.pid ambHighTid.tid Level.info.label)) = some false := by
  decide!

/-- C12: at `LOG_OFF` both `Fatal` and `FatalIf`, whatever the predicate, hand control
back with the state untouched (nothing written, no exit); and for every threshold within
`LOG_OFF .. LOG_FATAL`, whatever the format and the arguments, `Fatal` ends the process
if and only if the threshold is not `LOG_OFF`. -/
theorem Fatal_exits_iff_not_off (amb : Ambient) (format : List Char) (args : ArgsExpr)
    (st : State) (hT : LOG_OFF ≤ st.vLogLevel ∧ st.vLogLevel ≤ LOG_FATAL) :
    (st.vLogLevel = LOG_OFF →
        Fatal amb format args st = Outcome.returns st ∧
        ∀ expr : Bool, FatalIf expr amb format args st = Outcome.returns st) ∧
    ((∃ status st1, Fatal amb format args st = Outcome.exits status st1) ↔
      st.vLogLevel ≠ LOG_OFF) := by
  refine ⟨?_, ?_⟩
  · intro h0
    have hg : ¬ (st.vLogLevel ≠ 0 ∧ st.vLogLevel ≤ LOG_FATAL) := by
      intro hc
      exact hc.1 h0
    have hF : Fatal amb format args st = Outcome.returns st := by
      unfold Fatal
      rw [if_neg hg]
    refine ⟨hF, ?_⟩
    intro expr
    cases expr
    · simp [FatalIf]
    · simpa [FatalIf] using hF
  · constructor
    · rintro ⟨status, st1, hx⟩ h0
      have hg : ¬ (st.vLogLevel ≠ 0 ∧ st.vLogLevel ≤ LOG_FATAL) := by
        intro hc
        exact hc.1 h0
      unfold Fatal at hx
      rw [if_neg hg] at hx
      cases hx
    · intro hne
      have hg : st.vLogLevel ≠ 0 ∧ st.vLogLevel ≤ LOG_FATAL := ⟨hne, hT.2⟩
      unfold Fatal
      rw [if_pos hg]
      exact ⟨_, _, rfl⟩

/-- C12, instance: `Fatal("stop")` at the default threshold `LOG_INFO` ends the process
(with `EXIT_FAILURE` when nothing has set `errno`), and so does the call
`Fatal("Too many threads (%zu)", maxThreads)` of `examples/threads.c`; after
`vLogInit(LOG_OFF, NULL)` both `Fatal` and `FatalIf` hand control back and leave the
state as it was. -/
theorem Fatal_exits_iff_not_off_witness :
    ((LOG_OFF ≤ State.initial.vLogLevel ∧ State.initial.vLogLevel ≤ LOG_FATAL) ∧
      Fatal ambSample "stop".toList (pureArgs []) State.initial =
        Outcome.exits EXIT_FAILURE
          { State.initial with written := [(Dest.stderr,
            "2022-04-07T16:09:33+0100 |   4242 | 140737348 | FATAL   | stop\n".toList)] } ∧
      ((∃ status st1, Fatal ambSample "stop".toList (pureArgs []) State.initial =
          Outcome.exits status st1) ↔
        State.initial.vLogLevel ≠ LOG_OFF) ∧
      ((∃ status st1,
          Fatal ambSample "Too many threads (%zu)".toList (pureArgs [Arg.int 51])
            State.initial = Outcome.exits status st1) ↔
        State.initial.vLogLevel ≠ LOG_OFF)) ∧
    ((LOG_OFF ≤ stOff.vLogLevel ∧ stOff.vLogLevel ≤ LOG_FATAL) ∧
      stOff.vLogLevel = LOG_OFF ∧
      Fatal ambSample "stop".toList (pureArgs []) stOff = Outcome.returns stOff ∧
      ∀ expr : Bool, FatalIf expr ambSample "stop".toList (pureArgs []) stOff =
        Outcome.returns stOff) :=
  ⟨⟨by decide, by decide!,
      (Fatal_exits_iff_not_off ambSample "stop".toList (pureArgs []) State.initial
        (by decide)).2,
      (Fatal_exits_iff_not_off ambSample "Too many threads (%zu)".toList
        (pureArgs [Arg.int 51]) State.initial (by decide)).2⟩,
    ⟨by decide, by decide,
      (Fatal_exits_iff_not_off ambSample "stop".toList (pureArgs []) stOff
        (by decide)).1 (by decide)⟩⟩

end VLogger
